import Mathlib

/-!
Verification of the multi-agent pipeline core
(`shared_protocol.py`, `orchestrator.py`, `agent_server.py`).

The Python code is shallowly embedded: JSON values are the inductive
`JValue` (numbers restricted to integers; floats out of scope), the wire
codec `json.dumps` / `json.loads` is modelled by the executable `dumps` /
`loads` below (Python's default separators `", "` and `": "`, the
`ensure_ascii=False` escape table), and the stateful server / orchestrator
loops become explicit state-passing functions.  Python exceptions
(`AttributeError` on `.get` of a non-dict, `TypeError` on hashing an
unhashable set element) are modelled with `Except` / explicit crash
results, because several properties hinge on them.
-/

namespace MultiAgent

/-- A decoded JSON value, as produced by Python's `json.loads`:
`None`, `bool`, `int` (floats not modelled), `str`, `list`, `dict`
(keys are strings, as for every value decoded from JSON). -/
inductive JValue where
  | null : JValue
  | bool : Bool → JValue
  | num : Int → JValue
  | str : String → JValue
  | arr : List JValue → JValue
  | obj : List (String × JValue) → JValue
deriving Repr

mutual

/-- Structural equality of JSON values (Python `==` on the scalar types that
appear here; `True == 1` conflation is irrelevant to every claim below). -/
def jeq : JValue → JValue → Bool
  | .null, .null => true
  | .bool a, .bool b => a == b
  | .num a, .num b => a == b
  | .str a, .str b => a == b
  | .arr a, .arr b => jeqArr a b
  | .obj a, .obj b => jeqObj a b
  | _, _ => false

def jeqArr : List JValue → List JValue → Bool
  | [], [] => true
  | a :: as_, b :: bs => jeq a b && jeqArr as_ bs
  | _, _ => false

def jeqObj : List (String × JValue) → List (String × JValue) → Bool
  | [], [] => true
  | (k, a) :: as_, (l, b) :: bs => k == l && jeq a b && jeqObj as_ bs
  | _, _ => false

end

mutual

theorem jeq_eq : ∀ {a b : JValue}, jeq a b = true → a = b
  | .null, .null, _ => rfl
  | .bool _, .bool _, h => by
      simp only [jeq, beq_iff_eq] at h; exact congrArg JValue.bool h
  | .num _, .num _, h => by
      simp only [jeq, beq_iff_eq] at h; exact congrArg JValue.num h
  | .str _, .str _, h => by
      simp only [jeq, beq_iff_eq] at h; exact congrArg JValue.str h
  | .arr _, .arr _, h => congrArg JValue.arr (jeqArr_eq h)
  | .obj _, .obj _, h => congrArg JValue.obj (jeqObj_eq h)

theorem jeqArr_eq : ∀ {a b : List JValue}, jeqArr a b = true → a = b
  | [], [], _ => rfl
  | a :: as_, b :: bs, h => by
      simp only [jeqArr, Bool.and_eq_true] at h
      rw [jeq_eq h.1, jeqArr_eq h.2]

theorem jeqObj_eq : ∀ {a b : List (String × JValue)}, jeqObj a b = true → a = b
  | [], [], _ => rfl
  | (k, a) :: as_, (l, b) :: bs, h => by
      simp only [jeqObj, Bool.and_eq_true] at h
      rw [jeq_eq h.1.2, jeqObj_eq h.2, beq_iff_eq.mp h.1.1]

end

mutual

theorem jeq_refl : ∀ (a : JValue), jeq a a = true
  | .null => rfl
  | .bool _ => by simp [jeq]
  | .num _ => by simp [jeq]
  | .str _ => by simp [jeq]
  | .arr a => by simp only [jeq]; exact jeqArr_refl a
  | .obj a => by simp only [jeq]; exact jeqObj_refl a

theorem jeqArr_refl : ∀ (a : List JValue), jeqArr a a = true
  | [] => rfl
  | a :: as_ => by
      simp only [jeqArr, Bool.and_eq_true]
      exact ⟨jeq_refl a, jeqArr_refl as_⟩

theorem jeqObj_refl : ∀ (a : List (String × JValue)), jeqObj a a = true
  | [] => rfl
  | (k, a) :: as_ => by
      simp only [jeqObj, Bool.and_eq_true]
      exact ⟨⟨by simp, jeq_refl a⟩, jeqObj_refl as_⟩

end

instance : DecidableEq JValue := fun a b =>
  if h : jeq a b = true then .isTrue (jeq_eq h)
  else .isFalse (fun e => h (e ▸ jeq_refl a))

instance : BEq JValue := ⟨fun a b => jeq a b⟩

instance : LawfulBEq JValue where
  eq_of_beq h := jeq_eq h
  rfl := jeq_refl _

/-- Python truthiness of a decoded JSON value (`if task_type` in the server's
set comprehension): `None`, `False`, `0`, `""`, `[]`, `{}` are falsy. -/
def pyTruthy : JValue → Bool
  | .null => false
  | .bool b => b
  | .num n => n != 0
  | .str s => s != ""
  | .arr xs => !xs.isEmpty
  | .obj kvs => !kvs.isEmpty

/-- Python hashability: `list` and `dict` values raise `TypeError` when
hashed (set construction, `in` on a set); scalars are hashable. -/
def pyHashable : JValue → Bool
  | .arr _ => false
  | .obj _ => false
  | _ => true

/-- Membership of a value in a Python set of (hashable) values, modelled on a
list: `v in s` is `any(v == x for x in s)`. -/
def pyMem (v : JValue) (s : List JValue) : Bool := s.any (fun x => jeq v x)

/-- `d.get(key)` on the association list of a decoded JSON object
(first match; a Python dict never holds duplicate keys). -/
def jlookup : List (String × JValue) → String → Option JValue
  | [], _ => none
  | (k, v) :: kvs, key => if k == key then some v else jlookup kvs key

/-! ## The wire codec: `json.dumps` / `json.loads`

`shared_protocol.encode_message` is `json.dumps(payload, ensure_ascii=False)
+ "\n"` encoded as UTF-8; `decode_message` is `json.loads` of the stripped
line, with a sentinel object on failure.  `dumps` below reproduces CPython's
renderer on the modelled value universe: default separators `", "` and
`": "`, the escape table `\\ \" \b \f \n \r \t` plus `\u00XX` for the
remaining control characters, non-ASCII characters emitted raw, integers in
decimal.  `loads` is a recursive-descent parser for the same grammar
(numbers restricted to integers — no float in any modelled message). -/

/-- Lowercase hexadecimal digit (CPython formats escapes with `%04x`). -/
def hexDig (n : Nat) : Char :=
  if n < 10 then Char.ofNat (48 + n) else Char.ofNat (87 + n)

/-- One string character as CPython's `json` module escapes it
(`ensure_ascii=False`): the seven short escapes, `\u00XX` for the other
control characters, everything else raw. -/
def escChar (c : Char) : List Char :=
  if c = '\\' then ['\\', '\\']
  else if c = '"' then ['\\', '"']
  else if c = '\n' then ['\\', 'n']
  else if c = '\r' then ['\\', 'r']
  else if c = '\t' then ['\\', 't']
  else if c = Char.ofNat 8 then ['\\', 'b']
  else if c = Char.ofNat 12 then ['\\', 'f']
  else if c.toNat < 32 then
    ['\\', 'u', '0', '0', hexDig (c.toNat / 16), hexDig (c.toNat % 16)]
  else [c]

/-- A rendered JSON string: quote, escaped body, quote. -/
def encStr (s : String) : List Char := '"' :: (s.data.flatMap escChar ++ ['"'])

/-- The decimal digit character of `k < 10`. -/
def digitCh (k : Nat) : Char := Char.ofNat (48 + k)

/-- Decimal digits, most significant first, by structural recursion on a
fuel bound (`fuel ≥ n` always holds at the call below, so the fuel-out
branch is unreachable; structural recursion keeps the function reducible
in the kernel). -/
def natCharsF : Nat → Nat → List Char
  | 0, n => [digitCh (n % 10)]
  | fuel + 1, n => if n < 10 then [digitCh n] else natCharsF fuel (n / 10) ++ [digitCh (n % 10)]

/-- Decimal digits of a natural number, most significant first. -/
def natChars (n : Nat) : List Char := natCharsF n n

/-- `str(i)` for a Python integer: optional minus sign, then digits. -/
def intChars (i : Int) : List Char :=
  if i < 0 then '-' :: natChars i.natAbs else natChars i.natAbs

mutual

/-- `json.dumps(v, ensure_ascii=False)` as a character list. -/
def dumpsL : JValue → List Char
  | .null => "null".data
  | .bool true => "true".data
  | .bool false => "false".data
  | .num n => intChars n
  | .str s => encStr s
  | .arr xs => '[' :: (dumpsItems xs ++ [']'])
  | .obj kvs => '{' :: (dumpsFields kvs ++ ['}'])

/-- Array elements joined by `", "` (the default item separator). -/
def dumpsItems : List JValue → List Char
  | [] => []
  | [x] => dumpsL x
  | x :: y :: xs => dumpsL x ++ ',' :: ' ' :: dumpsItems (y :: xs)

/-- Object members `"key": value` joined by `", "` (default separators). -/
def dumpsFields : List (String × JValue) → List Char
  | [] => []
  | [(k, v)] => encStr k ++ ':' :: ' ' :: dumpsL v
  | (k, v) :: f :: fs => encStr k ++ ':' :: ' ' :: (dumpsL v ++ ',' :: ' ' :: dumpsFields (f :: fs))

end

/-- `json.dumps(v, ensure_ascii=False)`. -/
def dumps (v : JValue) : String := ⟨dumpsL v⟩

/-- JSON whitespace, skipped between tokens by `json.loads`. -/
def jws (c : Char) : Bool := (c == ' ') || (c == '\t') || (c == '\n') || (c == '\r')

/-- Drop leading JSON whitespace. -/
def dropWs : List Char → List Char
  | [] => []
  | c :: cs => if jws c then dropWs cs else c :: cs

/-- ASCII decimal digit test. -/
def isDig (c : Char) : Bool := 48 ≤ c.toNat && c.toNat ≤ 57

/-- Split a leading run of decimal digits from the input. -/
def digSpan : List Char → List Char × List Char
  | [] => ([], [])
  | c :: cs =>
      if isDig c then
        let p := digSpan cs
        (c :: p.1, p.2)
      else ([], c :: cs)

/-- The natural number a digit run denotes. -/
def digsNat (ds : List Char) : Nat := ds.foldl (fun a c => 10 * a + (c.toNat - 48)) 0

/-- Value of one hexadecimal digit character. -/
def hexNib (c : Char) : Option Nat :=
  if 48 ≤ c.toNat && c.toNat ≤ 57 then some (c.toNat - 48)
  else if 97 ≤ c.toNat && c.toNat ≤ 102 then some (c.toNat - 87)
  else if 65 ≤ c.toNat && c.toNat ≤ 70 then some (c.toNat - 55)
  else none

/-- The single characters reachable by a backslash short escape. -/
def unescChar (e : Char) : Option Char :=
  if e = '"' then some '"'
  else if e = '\\' then some '\\'
  else if e = '/' then some '/'
  else if e = 'b' then some (Char.ofNat 8)
  else if e = 'f' then some (Char.ofNat 12)
  else if e = 'n' then some '\n'
  else if e = 'r' then some '\r'
  else if e = 't' then some '\t'
  else none

/-- Parse a string body after the opening quote: content up to the closing
quote (escapes decoded), and the remaining input.  The fuel only bounds the
recursion (each step consumes at least one character, so any fuel beyond
the input length is enough; running out models no Python behavior). -/
def strBodyF : Nat → List Char → Option (List Char × List Char)
  | 0, _ => none
  | _ + 1, [] => none
  | g + 1, c :: cs =>
      if c = '"' then some ([], cs)
      else if c = '\\' then
        match cs with
        | 'u' :: h1 :: h2 :: h3 :: h4 :: cs2 =>
            match hexNib h1, hexNib h2, hexNib h3, hexNib h4 with
            | some a, some b, some c2, some d =>
                (strBodyF g cs2).map fun p =>
                  (Char.ofNat (((a * 16 + b) * 16 + c2) * 16 + d) :: p.1, p.2)
            | _, _, _, _ => none
        | e :: cs2 =>
            match unescChar e with
            | some ch => (strBodyF g cs2).map fun p => (ch :: p.1, p.2)
            | none => none
        | [] => none
      else (strBodyF g cs).map fun p => (c :: p.1, p.2)

mutual

/-- Parse one JSON value, skipping leading whitespace (numbers are
integer-only in this model). -/
def jval : Nat → List Char → Option (JValue × List Char)
  | 0, _ => none
  | fuel + 1, cs =>
      match dropWs cs with
      | 'n' :: 'u' :: 'l' :: 'l' :: r => some (.null, r)
      | 't' :: 'r' :: 'u' :: 'e' :: r => some (.bool true, r)
      | 'f' :: 'a' :: 'l' :: 's' :: 'e' :: r => some (.bool false, r)
      | '"' :: r => (strBodyF fuel r).map fun p => (.str ⟨p.1⟩, p.2)
      | '[' :: r =>
          match dropWs r with
          | [] => none
          | c :: r2 =>
              if c = ']' then some (.arr [], r2)
              else (jitems fuel (c :: r2)).map fun p => (.arr p.1, p.2)
      | '{' :: r =>
          match dropWs r with
          | [] => none
          | c :: r2 =>
              if c = '}' then some (.obj [], r2)
              else (jfields fuel (c :: r2)).map fun p => (.obj p.1, p.2)
      | '-' :: r =>
          match digSpan r with
          | ([], _) => none
          | (ds, r2) => some (.num (-(digsNat ds : Int)), r2)
      | c :: r =>
          if isDig c then
            match digSpan (c :: r) with
            | (ds, r2) => some (.num (digsNat ds), r2)
          else none
      | [] => none

/-- Parse one or more comma-separated array elements up to `]`. -/
def jitems : Nat → List Char → Option (List JValue × List Char)
  | 0, _ => none
  | fuel + 1, cs =>
      match jval fuel cs with
      | none => none
      | some (v, r) =>
          match dropWs r with
          | ',' :: r2 =>
              match jitems fuel r2 with
              | some (vs, r3) => some (v :: vs, r3)
              | none => none
          | ']' :: r2 => some ([v], r2)
          | _ => none

/-- Parse one or more comma-separated `"key": value` members up to `}`. -/
def jfields : Nat → List Char → Option (List (String × JValue) × List Char)
  | 0, _ => none
  | fuel + 1, cs =>
      match dropWs cs with
      | '"' :: r =>
          match strBodyF fuel r with
          | none => none
          | some (k, r1) =>
              match dropWs r1 with
              | ':' :: r2 =>
                  match jval fuel r2 with
                  | none => none
                  | some (v, r3) =>
                      match dropWs r3 with
                      | ',' :: r4 =>
                          match jfields fuel r4 with
                          | some (fs, r5) => some ((⟨k⟩, v) :: fs, r5)
                          | none => none
                      | '}' :: r4 => some ([(⟨k⟩, v)], r4)
                      | _ => none
              | _ => none
      | _ => none

end

/-- `json.loads`: parse one document and require only whitespace after it. -/
def loads (s : String) : Option JValue :=
  match jval (s.data.length + 1) s.data with
  | some (v, r) => if (dropWs r).isEmpty then some v else none
  | none => none

/-- Python `str.strip()` whitespace (the ASCII part; the frames at issue
only ever carry the trailing `"\n"`). -/
def pyWs (c : Char) : Bool :=
  (c == ' ') || (c == '\t') || (c == '\n') || (c == '\r') || (c == Char.ofNat 11) ||
    (c == Char.ofNat 12)

/-- `line.strip()`: drop leading, then trailing, whitespace. -/
def pyStrip (s : String) : String :=
  ⟨((s.data.dropWhile pyWs).reverse.dropWhile pyWs).reverse⟩

/-! ## `shared_protocol.py` -/

/-- `encode_message(payload)`: `json.dumps(payload, ensure_ascii=False)`
plus the newline delimiter (the UTF-8 byte level is modelled by the string
itself). -/
def encode_message (payload : JValue) : String := dumps payload ++ "\n"

/-- The sentinel's `detail` field is `str(e)` for the caught exception; no
caller ever reads it, so it is modelled as a fixed placeholder. -/
def decodeDetail : String := "json_error"

/-- `decode_message(line)`: `json.loads(line.decode("utf-8").strip())`, and
the `{"error": "decode_error", "detail": ...}` sentinel when parsing fails. -/
def decode_message (line : String) : JValue :=
  match loads (pyStrip line) with
  | some v => v
  | none => .obj [("error", .str "decode_error"), ("detail", .str decodeDetail)]

/-- `ALLOWED_TASK_TYPES = {"collect", "analyze", "report"}`. -/
def ALLOWED_TASK_TYPES : List JValue := [.str "collect", .str "analyze", .str "report"]

/-- `REQUIRED_FIELDS = {"task_id", "task_type", "data", "auth_token"}`.  The
source keeps a Python set and applies `sorted(...)` to the missing members;
this list is kept in ascending order so filtering it below reproduces
`sorted(missing)` directly. -/
def REQUIRED_FIELDS : List String := ["auth_token", "data", "task_id", "task_type"]

/-- `sorted(REQUIRED_FIELDS - set(req.keys()))`: the required fields absent
from the request, in ascending order. -/
def missingOf (kvs : List (String × JValue)) : List String :=
  REQUIRED_FIELDS.filter (fun k => (jlookup kvs k).isNone)

/-- Python exceptions that the modelled code can actually raise. -/
inductive PyErr where
  /-- hashing a `list`/`dict`, e.g. by a set constructor or `in` on a set -/
  | typeError : PyErr
  /-- `.get` called on a non-dict value -/
  | attributeError : PyErr
  /-- indexing a dict at an absent key (never reachable on the paths below) -/
  | keyError : PyErr
deriving Repr, DecidableEq

instance {ε α : Type} [DecidableEq ε] [DecidableEq α] : DecidableEq (Except ε α) := fun a b =>
  match a, b with
  | .ok x, .ok y => if h : x = y then .isTrue (by rw [h]) else .isFalse (by simp [h])
  | .error x, .error y => if h : x = y then .isTrue (by rw [h]) else .isFalse (by simp [h])
  | .ok _, .error _ => .isFalse (by simp)
  | .error _, .ok _ => .isFalse (by simp)

/-- `isinstance(v, str) and v` (a non-empty string). -/
def isNonEmptyStr : JValue → Bool
  | .str s => s != ""
  | _ => false

/-- `isinstance(v, (str, dict, list))`. -/
def isStrDictList : JValue → Bool
  | .str _ => true
  | .obj _ => true
  | .arr _ => true
  | _ => false

/-- `validate_request(req, expected_task_types=None)`, line by line from the
source.  `expected_task_types` is a Python set of (hashable) values,
modelled as a list; `none` is the `None` default.  The membership test
`req["task_type"] not in expected_task_types` hashes the `task_type` value
first, so an unhashable value raises `TypeError` there.  The `keyError`
branches model `req[...]` on an absent key; they are unreachable because
the missing-fields check has passed. -/
def validate_request (req : JValue) (expected_task_types : Option (List JValue)) :
    Except PyErr (Bool × String) :=
  match req with
  | .obj kvs =>
      let missing := missingOf kvs
      if !missing.isEmpty then
        .ok (false, "missing_fields:" ++ String.intercalate "," missing)
      else
        let expected := expected_task_types.getD ALLOWED_TASK_TYPES
        match jlookup kvs "task_type" with
        | none => .error .keyError
        | some tt =>
            if !pyHashable tt then .error .typeError
            else if !pyMem tt expected then .ok (false, "invalid_task_type")
            else
              match jlookup kvs "task_id" with
              | none => .error .keyError
              | some tid =>
                  if !isNonEmptyStr tid then .ok (false, "invalid_task_id")
                  else
                    match jlookup kvs "data" with
                    | none => .error .keyError
                    | some d =>
                        if !isStrDictList d then .ok (false, "invalid_data")
                        else .ok (true, "ok")
  | _ => .ok (false, "invalid_format")

/-- `make_response(task_id, status, result=None, error=None)`; the two
optional arguments are passed explicitly at every modelled call site. -/
def make_response (task_id : JValue) (status : String) (result : JValue) (error : JValue) :
    JValue :=
  .obj [("task_id", task_id), ("status", .str status), ("result", result), ("error", error)]

/-! ## `orchestrator.py` -/

/-- `ROUTES`: the fixed task-type → (host, port) routing table. -/
def ROUTES : List (String × String × Nat) :=
  [("collect", "collector", 7001), ("analyze", "analyzer", 7002), ("report", "reporter", 7003)]

/-- `task_type in ROUTES` / `ROUTES[task_type]`. -/
def lookupRoute : List (String × String × Nat) → String → Option (String × Nat)
  | [], _ => none
  | (t, h, p) :: rs, key => if t == key then some (h, p) else lookupRoute rs key

/-- One `TASK_LOG` entry: `{"step": task_type, "response": resp}`. -/
structure LogEntry where
  step : String
  response : JValue
deriving Repr, DecidableEq

/-- The orchestrator's `TASK_LOG`, task id → last recorded entry. -/
def TaskLog := String → Option LogEntry

/-- Observable orchestrator actions, in program order: each `send_request`
call (with the exact payload), and each `dashboard()` rendering. -/
inductive OrchEvent where
  | sent (host : String) (port : Nat) (payload : JValue)
  | dashboardShown
deriving Repr, DecidableEq

/-- The request payload `route` builds:
`{"task_id": ..., "task_type": ..., "data": ..., "auth_token": AUTH_TOKEN}`. -/
def mkPayload (tok task_id task_type : String) (data : JValue) : JValue :=
  .obj [("task_id", .str task_id), ("task_type", .str task_type), ("data", data),
    ("auth_token", .str tok)]

/-- `route(task_id, task_type, data)`.  `net` stands for `send_request`'s
result (host, port, payload ↦ decoded response) and `tok` for `AUTH_TOKEN`;
the returned event list records the `send_request` calls made. -/
def route (net : String → Nat → JValue → JValue) (tok : String) (log : TaskLog)
    (task_id task_type : String) (data : JValue) : JValue × TaskLog × List OrchEvent :=
  match lookupRoute ROUTES task_type with
  | none => (make_response (.str task_id) "error" .null (.str "route_not_found"), log, [])
  | some (host, port) =>
      let payload := mkPayload tok task_id task_type data
      let resp := net host port payload
      (resp, fun k => if k = task_id then some ⟨task_type, resp⟩ else log k,
        [.sent host port payload])

/-- `run_pipeline(task_id, user_text)`: collect, then analyze on collect's
`result`, then report on analyze's `result`, short-circuiting on a
non-`"ok"` status; `dashboard()` renders after the report call returns.
`r.get("status")` on a non-dict response raises `AttributeError`, which
propagates (`.error`). -/
def run_pipeline (net : String → Nat → JValue → JValue) (tok : String) (log : TaskLog)
    (task_id : String) (user_text : JValue) :
    Except PyErr (JValue × TaskLog × List OrchEvent) :=
  let p1 := route net tok log task_id "collect" user_text
  match p1.1 with
  | .obj kvs1 =>
      if jlookup kvs1 "status" ≠ some (.str "ok") then .ok p1
      else
        let p2 := route net tok p1.2.1 task_id "analyze" ((jlookup kvs1 "result").getD .null)
        match p2.1 with
        | .obj kvs2 =>
            if jlookup kvs2 "status" ≠ some (.str "ok") then
              .ok (p2.1, p2.2.1, p1.2.2 ++ p2.2.2)
            else
              let p3 := route net tok p2.2.1 task_id "report" ((jlookup kvs2 "result").getD .null)
              .ok (p3.1, p3.2.1, p1.2.2 ++ p2.2.2 ++ p3.2.2 ++ [.dashboardShown])
        | _ => .error .attributeError
  | _ => .error .attributeError

/-- `resp.get("status") == "ok"`, for response objects. -/
def statusOk (r : JValue) : Bool :=
  match r with
  | .obj kvs => jlookup kvs "status" == some (.str "ok")
  | _ => false

/-- `resp.get("result")` (`None` when absent), for response objects. -/
def resultOf (r : JValue) : JValue :=
  match r with
  | .obj kvs => (jlookup kvs "result").getD .null
  | _ => .null

/-! ### `send_request` -/

/-- One TCP pass from `send_request`'s viewpoint: the chunks `recv`
returned in order, then either an I/O exception (`aborts = true`: connect,
`sendall` or `recv` raised, timeouts included) or a clean close (`recv`
returned `b""`).  A delimiter inside the received data takes precedence
over the ending: the receive loop returns as soon as the accumulated
buffer contains `"\n"`, before the ending could be observed. -/
structure ConnAttempt where
  chunks : List String
  aborts : Bool
deriving Repr, DecidableEq

/-- The characters before the first newline, when one occurs. -/
def beforeNl : List Char → Option (List Char)
  | [] => none
  | '\n' :: _ => some []
  | c :: cs => (beforeNl cs).map (c :: ·)

/-- What one connection pass yields to the retry loop. -/
inductive ConnResult where
  | frame (line : String)
  | closed
  | ioError
deriving Repr, DecidableEq

/-- The outcome of one pass: the first newline-delimited line if the data
ever contains the delimiter, otherwise how the pass ended. -/
def connOutcome (a : ConnAttempt) : ConnResult :=
  match beforeNl (String.join a.chunks).data with
  | some l => .frame ⟨l⟩
  | none => if a.aborts then .ioError else .closed

/-- `payload.get("task_id", "")` (all modelled callers pass a dict). -/
def payloadTaskId : JValue → JValue
  | .obj kvs => (jlookup kvs "task_id").getD (.str "")
  | _ => .str ""

/-- The give-up response
`{"task_id": payload.get("task_id", ""), "status": "error", "error": "network_failure"}`
(note: no `"result"` key — the source builds this dict literally, not via
`make_response`). -/
def networkFailure (payload : JValue) : JValue :=
  .obj [("task_id", payloadTaskId payload), ("status", .str "error"),
    ("error", .str "network_failure")]

/-- The retry loop's state: `running attempt conns sleeps` carries the
`attempt` counter, the number of connections opened so far and the sleeps
performed so far (in time units, as exact rationals: `0.5 * 2 ** a` is
dyadic, so float arithmetic is exact here); `done` holds the returned
response. -/
inductive SendState where
  | running (attempt conns : Nat) (sleeps : List ℚ)
  | done (resp : JValue) (conns : Nat) (sleeps : List ℚ)
deriving Repr, DecidableEq

/-- One iteration of `send_request`'s `while attempt < retries` loop.
`peer i` is the behavior of the `i`-th connection the loop opens.  A
delimited frame returns its decoded line; an exception logs, sleeps
`backoff * 2 ** attempt` and increments `attempt`; a clean close without a
delimiter merely breaks the receive loop — the `with` block ends, no
exception is raised, and the `while` re-enters with `attempt` unchanged. -/
def sendStep (peer : Nat → ConnAttempt) (payload : JValue) (retries : Nat) (backoff : ℚ) :
    SendState → SendState
  | .done r c s => .done r c s
  | .running attempt conns sleeps =>
      if attempt < retries then
        match connOutcome (peer conns) with
        | .frame line => .done (decode_message line) (conns + 1) sleeps
        | .closed => .running attempt (conns + 1) sleeps
        | .ioError => .running (attempt + 1) (conns + 1) (sleeps ++ [backoff * 2 ^ attempt])
      else .done (networkFailure payload) conns sleeps

/-- The loop state after `n` iterations, starting from `attempt = 0` with
no connection opened yet. -/
def sendIter (peer : Nat → ConnAttempt) (payload : JValue) (retries : Nat) (backoff : ℚ) :
    Nat → SendState
  | 0 => .running 0 0 []
  | n + 1 => sendStep peer payload retries backoff (sendIter peer payload retries backoff n)

/-! ## `agent_server.py` -/

/-- An agent's in-memory store — and equally the decoded contents of its
JSON backing file: task id → memory entry. -/
def Mem := String → Option JValue

/-- The injected per-agent capability `handle_task(task_type, data, memory)
-> result`; `.error` models a raised exception (answered with
`processing_error`).  Its first argument is the request's `task_type`
value, which validation constrains only to be truthy and a member of the
server's expected set, not to be a string. -/
def Handler := JValue → JValue → Mem → Except Unit JValue

/-- Processing of one extracted frame by `start_server`'s per-connection
loop, with the surrounding state explicit: `tok` is `AUTH_TOKEN`, `mem`
the in-memory store, `disk` the persisted backing file (`save_memory`
rewrites it wholesale; its own I/O failures are logged and swallowed, so
the successful-save behavior is modelled).  The first component is the
response frame sent back (`none` when an uncaught exception aborts the
whole connection instead), then the store and the file afterwards. -/
def processFrame (tok : String) (handle_task : Handler) (mem disk : Mem) (line : String) :
    Option JValue × Mem × Mem :=
  let req := decode_message line
  match req with
  | .obj kvs =>
      -- expected_task_types = {t for t in [req.get("task_type")] if t}:
      -- a truthy unhashable task_type raises TypeError in the set display
      let ttOpt := jlookup kvs "task_type"
      let setOk := match ttOpt with
                   | some v => !pyTruthy v || pyHashable v
                   | none => true
      if !setOk then (none, mem, disk)
      else
        let expected : List JValue :=
          match ttOpt with
          | some v => if pyTruthy v then [v] else []
          | none => []
        match validate_request req (some expected) with
        | .error _ => (none, mem, disk)
        | .ok (ok, reason) =>
            if !ok then
              (some (make_response ((jlookup kvs "task_id").getD (.str "")) "error" .null
                (.str reason)), mem, disk)
            else
              match jlookup kvs "auth_token", jlookup kvs "task_id",
                  jlookup kvs "task_type", jlookup kvs "data" with
              | some av, some (.str tid), some tt, some d =>
                  if av ≠ .str tok then
                    (some (make_response (.str tid) "error" .null (.str "unauthorized")),
                      mem, disk)
                  else
                    match handle_task tt d mem with
                    | .ok result =>
                        let entry : JValue :=
                          .obj [("task_type", tt), ("data", d), ("result", result)]
                        let mem2 : Mem := fun k => if k = tid then some entry else mem k
                        (some (make_response (.str tid) "ok" result .null), mem2, mem2)
                    | .error _ =>
                        (some (make_response (.str tid) "error" .null
                          (.str "processing_error")), mem, disk)
              | _, _, _, _ => (none, mem, disk)  -- unreachable: validation passed
  | _ => (none, mem, disk)  -- req.get(...) on a non-dict raises AttributeError

/-! ## Statement helpers -/

/-- Is the value a mapping? -/
def JValue.isObj : JValue → Bool
  | .obj _ => true
  | _ => false

/-- The payload `run_pipeline` sends to the collect stage. -/
def pipePayload1 (tok tid : String) (input : JValue) : JValue :=
  mkPayload tok tid "collect" input

/-- The collect stage's response. -/
def pipeResp1 (net : String → Nat → JValue → JValue) (tok tid : String) (input : JValue) :
    JValue :=
  net "collector" 7001 (pipePayload1 tok tid input)

/-- The payload sent to the analyze stage: its `data` is the collect
response's `result` field. -/
def pipePayload2 (net : String → Nat → JValue → JValue) (tok tid : String) (input : JValue) :
    JValue :=
  mkPayload tok tid "analyze" (resultOf (pipeResp1 net tok tid input))

/-- The analyze stage's response. -/
def pipeResp2 (net : String → Nat → JValue → JValue) (tok tid : String) (input : JValue) :
    JValue :=
  net "analyzer" 7002 (pipePayload2 net tok tid input)

/-- The payload sent to the report stage: its `data` is the analyze
response's `result` field. -/
def pipePayload3 (net : String → Nat → JValue → JValue) (tok tid : String) (input : JValue) :
    JValue :=
  mkPayload tok tid "report" (resultOf (pipeResp2 net tok tid input))

/-- The report stage's response. -/
def pipeResp3 (net : String → Nat → JValue → JValue) (tok tid : String) (input : JValue) :
    JValue :=
  net "reporter" 7003 (pipePayload3 net tok tid input)

/-- A network oracle whose every response is an ok-status object. -/
def okNet : String → Nat → JValue → JValue :=
  fun _ _ _ => .obj [("status", .str "ok"), ("result", .str "stage output")]

/-- The reference definition of validation that claim C4 states (spec
§4.1), as a pure function of the request and the expected set: it always
returns a verdict pair — `invalid_format` for a non-mapping, the sorted
comma-joined missing fields, `invalid_task_type` whenever `task_type` is
not in the expected set (defaulting to the full allowed set), then the
`task_id` and `data` shape checks — and never raises. -/
def validateSpec (req : JValue) (expected_task_types : Option (List JValue)) : Bool × String :=
  match req with
  | .obj kvs =>
      let missing := missingOf kvs
      if !missing.isEmpty then
        (false, "missing_fields:" ++ String.intercalate "," missing)
      else
        let expected := expected_task_types.getD ALLOWED_TASK_TYPES
        match jlookup kvs "task_type", jlookup kvs "task_id", jlookup kvs "data" with
        | some tt, some tid, some d =>
            if !pyMem tt expected then (false, "invalid_task_type")
            else if !isNonEmptyStr tid then (false, "invalid_task_id")
            else if !isStrDictList d then (false, "invalid_data")
            else (true, "ok")
        | _, _, _ => (true, "ok")  -- unreachable: no required field is missing
  | _ => (false, "invalid_format")

/-- The request's `task_type` value is hashable (or absent, or the request
is no mapping): exactly the condition under which `validate_request`'s
membership test cannot raise `TypeError`. -/
def taskTypeHashable (req : JValue) : Bool :=
  match req with
  | .obj kvs =>
      match jlookup kvs "task_type" with
      | some v => pyHashable v
      | none => true
  | _ => true

/-- A handler that always succeeds. -/
def constHandler : Handler := fun _ _ _ => .ok (.str "done")

/-- A remainder that cannot extend a digit run: empty or headed by a
non-digit.  Every JSON separator (`,`, `]`, `}`, space, end of input)
qualifies. -/
def digBoundary : List Char → Bool
  | [] => true
  | c :: _ => !isDig c

/-- The empty store. -/
def emptyMem : Mem := fun _ => none

/-- A peer that accepts every connection and closes it again without ever
sending a byte (`recv` immediately returns `b""`; no exception). -/
def closingPeer : Nat → ConnAttempt := fun _ => ⟨[], false⟩

/-- A peer whose every connection pass raises an I/O error. -/
def raisingPeer : Nat → ConnAttempt := fun _ => ⟨[], true⟩

/-! ## Claims about the orchestrator -/

/-- A boolean `isObj` certificate yields the member list. -/
theorem isObj_exists {v : JValue} (h : v.isObj = true) :
    ∃ kvs, v = JValue.obj kvs := by
  cases v <;> simp_all [JValue.isObj]

/-- `route` on `"collect"` resolves to the collector endpoint. -/
theorem route_collect (net : String → Nat → JValue → JValue) (tok : String) (log : TaskLog)
    (tid : String) (data : JValue) :
    route net tok log tid "collect" data =
      (net "collector" 7001 (mkPayload tok tid "collect" data),
       fun k => if k = tid then
         some ⟨"collect", net "collector" 7001 (mkPayload tok tid "collect" data)⟩ else log k,
       [.sent "collector" 7001 (mkPayload tok tid "collect" data)]) := rfl

/-- `route` on `"analyze"` resolves to the analyzer endpoint. -/
theorem route_analyze (net : String → Nat → JValue → JValue) (tok : String) (log : TaskLog)
    (tid : String) (data : JValue) :
    route net tok log tid "analyze" data =
      (net "analyzer" 7002 (mkPayload tok tid "analyze" data),
       fun k => if k = tid then
         some ⟨"analyze", net "analyzer" 7002 (mkPayload tok tid "analyze" data)⟩ else log k,
       [.sent "analyzer" 7002 (mkPayload tok tid "analyze" data)]) := rfl

/-- `route` on `"report"` resolves to the reporter endpoint. -/
theorem route_report (net : String → Nat → JValue → JValue) (tok : String) (log : TaskLog)
    (tid : String) (data : JValue) :
    route net tok log tid "report" data =
      (net "reporter" 7003 (mkPayload tok tid "report" data),
       fun k => if k = tid then
         some ⟨"report", net "reporter" 7003 (mkPayload tok tid "report" data)⟩ else log k,
       [.sent "reporter" 7003 (mkPayload tok tid "report" data)]) := rfl

/-- **C1**: `run_pipeline` routes collect, analyze, report in that fixed
order, feeding each stage's `result` field to the next (that is what
`pipePayload2`/`pipePayload3` say); a non-`"ok"` status ends the run with
that stage's response, the later stages never routed; the dashboard event
occurs exactly once if and only if execution reaches the report routing
call (collect and analyze both `"ok"`), immediately after that call and
regardless of the report stage's own status.  The hypothesis restricts the
oracle to responses that are mappings — spec §3's Task Response shape —
since `r.get("status")` on anything else raises. -/
theorem c1_pipeline (net : String → Nat → JValue → JValue) (tok : String) (log : TaskLog)
    (tid : String) (input : JValue)
    (hNet : ∀ h p q, (net h p q).isObj = true) :
    ∃ res logF ev, run_pipeline net tok log tid input = .ok (res, logF, ev) ∧
      (statusOk (pipeResp1 net tok tid input) = false →
        res = pipeResp1 net tok tid input ∧
        ev = [.sent "collector" 7001 (pipePayload1 tok tid input)]) ∧
      (statusOk (pipeResp1 net tok tid input) = true →
        statusOk (pipeResp2 net tok tid input) = false →
        res = pipeResp2 net tok tid input ∧
        ev = [.sent "collector" 7001 (pipePayload1 tok tid input),
              .sent "analyzer" 7002 (pipePayload2 net tok tid input)]) ∧
      (statusOk (pipeResp1 net tok tid input) = true →
        statusOk (pipeResp2 net tok tid input) = true →
        res = pipeResp3 net tok tid input ∧
        ev = [.sent "collector" 7001 (pipePayload1 tok tid input),
              .sent "analyzer" 7002 (pipePayload2 net tok tid input),
              .sent "reporter" 7003 (pipePayload3 net tok tid input),
              .dashboardShown]) ∧
      ev.count .dashboardShown =
        (if statusOk (pipeResp1 net tok tid input) && statusOk (pipeResp2 net tok tid input)
         then 1 else 0) := by
  obtain ⟨kvs1, hk1⟩ := isObj_exists (hNet "collector" 7001 (pipePayload1 tok tid input))
  obtain ⟨kvs2, hk2⟩ := isObj_exists (hNet "analyzer" 7002 (pipePayload2 net tok tid input))
  have hr1 : pipeResp1 net tok tid input = .obj kvs1 := hk1
  have hr2 : pipeResp2 net tok tid input = .obj kvs2 := hk2
  have hst1 : statusOk (pipeResp1 net tok tid input) =
      (jlookup kvs1 "status" == some (.str "ok")) := by
    rw [hr1]; rfl
  have hst2 : statusOk (pipeResp2 net tok tid input) =
      (jlookup kvs2 "status" == some (.str "ok")) := by
    rw [hr2]; rfl
  have hk1m : net "collector" 7001 (mkPayload tok tid "collect" input) = .obj kvs1 := hk1
  have hpay2 : pipePayload2 net tok tid input =
      mkPayload tok tid "analyze" ((jlookup kvs1 "result").getD JValue.null) := by
    rw [pipePayload2, hr1]; rfl
  have hk2m : net "analyzer" 7002
      (mkPayload tok tid "analyze" ((jlookup kvs1 "result").getD JValue.null)) = .obj kvs2 := by
    rw [← hpay2]; exact hk2
  have hpay3 : pipePayload3 net tok tid input =
      mkPayload tok tid "report" ((jlookup kvs2 "result").getD JValue.null) := by
    rw [pipePayload3, hr2]; rfl
  simp only [run_pipeline, route_collect, route_analyze, route_report]
  simp only [hk1m]
  by_cases hs1 : jlookup kvs1 "status" = some (JValue.str "ok")
  case neg =>
    rw [if_pos hs1]
    refine ⟨_, _, _, rfl, fun _ => ⟨hr1.symm, rfl⟩, ?_, ?_, ?_⟩
    · intro habs
      rw [hst1] at habs
      exact absurd (by simpa using habs) hs1
    · intro habs
      rw [hst1] at habs
      exact absurd (by simpa using habs) hs1
    · rw [hst1]
      simp [hs1]
  case pos =>
    rw [if_neg (fun hne => hne hs1)]
    have hst1T : statusOk (pipeResp1 net tok tid input) = true := by
      rw [hst1]; simp [hs1]
    simp only [hk2m]
    by_cases hs2 : jlookup kvs2 "status" = some (JValue.str "ok")
    case neg =>
      rw [if_pos hs2]
      refine ⟨_, _, _, rfl, ?_, fun _ _ => ⟨hr2.symm, by rw [hpay2]; exact rfl⟩, ?_, ?_⟩
      · intro habs
        rw [hst1T] at habs
        exact absurd habs (by simp)
      · intro _ habs
        rw [hst2] at habs
        exact absurd (by simpa using habs) hs2
      · rw [hst1T, hst2]
        simp [hs2]
    case pos =>
      rw [if_neg (fun hne => hne hs2)]
      have hst2T : statusOk (pipeResp2 net tok tid input) = true := by
        rw [hst2]; simp [hs2]
      refine ⟨_, _, _, rfl, ?_, ?_, fun _ _ => ⟨by rw [pipeResp3, hpay3], by rw [hpay2, hpay3]; exact rfl⟩,
        ?_⟩
      · intro habs
        rw [hst1T] at habs
        exact absurd habs (by simp)
      · intro _ habs
        rw [hst2T] at habs
        exact absurd habs (by simp)
      · rw [hst1T, hst2T]
        simp

/-- Witness for C1 at an oracle that always answers with an ok-status
object. -/
theorem c1_pipeline_witness :
    (∀ h p q, (okNet h p q).isObj = true) ∧
    (∃ res logF ev,
      run_pipeline okNet "change-me" (fun _ => none) "task-001" (.str "hi") =
        .ok (res, logF, ev) ∧
      (statusOk (pipeResp1 okNet "change-me" "task-001" (.str "hi")) = false →
        res = pipeResp1 okNet "change-me" "task-001" (.str "hi") ∧
        ev = [.sent "collector" 7001 (pipePayload1 "change-me" "task-001" (.str "hi"))]) ∧
      (statusOk (pipeResp1 okNet "change-me" "task-001" (.str "hi")) = true →
        statusOk (pipeResp2 okNet "change-me" "task-001" (.str "hi")) = false →
        res = pipeResp2 okNet "change-me" "task-001" (.str "hi") ∧
        ev = [.sent "collector" 7001 (pipePayload1 "change-me" "task-001" (.str "hi")),
              .sent "analyzer" 7002 (pipePayload2 okNet "change-me" "task-001" (.str "hi"))]) ∧
      (statusOk (pipeResp1 okNet "change-me" "task-001" (.str "hi")) = true →
        statusOk (pipeResp2 okNet "change-me" "task-001" (.str "hi")) = true →
        res = pipeResp3 okNet "change-me" "task-001" (.str "hi") ∧
        ev = [.sent "collector" 7001 (pipePayload1 "change-me" "task-001" (.str "hi")),
              .sent "analyzer" 7002 (pipePayload2 okNet "change-me" "task-001" (.str "hi")),
              .sent "reporter" 7003 (pipePayload3 okNet "change-me" "task-001" (.str "hi")),
              .dashboardShown]) ∧
      ev.count .dashboardShown =
        (if statusOk (pipeResp1 okNet "change-me" "task-001" (.str "hi")) &&
            statusOk (pipeResp2 okNet "change-me" "task-001" (.str "hi"))
         then 1 else 0)) :=
  ⟨fun _ _ _ => rfl,
   c1_pipeline okNet "change-me" (fun _ => none) "task-001" (.str "hi") (fun _ _ _ => rfl)⟩

/-- **C9**: routing an unknown task type returns the `route_not_found`
error response immediately, with `result` null, opens no network call
(`send_request` is never invoked: the event list is empty) and leaves
`TASK_LOG` untouched. -/
theorem c9_route_not_found (net : String → Nat → JValue → JValue) (tok : String)
    (log : TaskLog) (task_id task_type : String) (data : JValue)
    (h : lookupRoute ROUTES task_type = none) :
    route net tok log task_id task_type data =
      (.obj [("task_id", .str task_id), ("status", .str "error"), ("result", .null),
        ("error", .str "route_not_found")], log, []) := by
  simp [route, h, make_response]

/-- Witness for C9 at the unknown task type `"foo"`. -/
theorem c9_route_not_found_witness :
    lookupRoute ROUTES "foo" = none ∧
    route (fun _ _ _ => JValue.null) "change-me" (fun _ => none) "t2" "foo" (.str "d") =
      (.obj [("task_id", .str "t2"), ("status", .str "error"), ("result", .null),
        ("error", .str "route_not_found")], (fun _ => none), []) :=
  ⟨by decide, c9_route_not_found (fun _ _ _ => JValue.null) "change-me" (fun _ => none)
    "t2" "foo" (.str "d") (by decide)⟩

/-- **C2** (the code violates it): against a peer that always closes the
connection without a delimiter, every loop iteration falls out of the
receive loop without raising, so the `while` re-enters with `attempt`
still 0: after `n` iterations the call is still running, `attempt = 0`,
`n` connections have been opened and no sleep has happened.  `send_request`
therefore never returns — the claim (and the spec's §9 guidance) requires
such a pass to advance the attempt counter so that at most `retries`
attempts are made. -/
theorem c2_close_without_frame_loops_forever (payload : JValue) (n : Nat) :
    sendIter closingPeer payload 3 (1/2) n = .running 0 n [] := by
  induction n with
  | zero => rfl
  | succ n ih => rw [sendIter, ih]; rfl

/-- **C3, counterexample**: the claim says `send_request` with `retries=3`
opens at most 3 connections, for every peer behavior; against the
always-closing peer the loop has already opened 4 connections after 4
iterations and is still running. -/
theorem c3_counterexample :
    sendIter closingPeer (.obj [("task_id", .str "t")]) 3 (1/2) 4 = .running 0 4 [] := by
  decide

/-- Once the loop has returned, later iterations keep the result. -/
theorem sendIter_stable {peer : Nat → ConnAttempt} {payload : JValue} {r : Nat} {b : ℚ}
    {x : JValue} {c : Nat} {s : List ℚ} {m : Nat}
    (h : sendIter peer payload r b m = .done x c s) :
    ∀ n, m ≤ n → sendIter peer payload r b n = .done x c s := by
  intro n hn
  induction n with
  | zero => exact (Nat.le_zero.mp hn) ▸ h
  | succ n ih =>
      by_cases hm : m = n + 1
      · exact hm ▸ h
      · have hstep := ih (by omega)
        rw [sendIter, hstep]
        rfl

/-- **C3, amended**: provided no connection pass ends in a clean close
without a delimiter (each pass either raises or yields a frame — see C2
for why the excluded case diverges), `send_request` with `retries = 3`,
`backoff = 0.5` either returns the decoded first frame of the first
successful pass `k < 3`, having opened exactly `k + 1 ≤ 3` connections and
slept `0.5 * 2 ^ j` after each failed attempt `j < k`, or all 3 attempts
raise and it returns the `network_failure` response after 3 connections
and sleeps `0.5, 1, 2`. -/
theorem c3_retry_behavior (peer : Nat → ConnAttempt) (payload : JValue)
    (hpeer : ∀ i, connOutcome (peer i) ≠ .closed) :
    (∃ k, k < 3 ∧ (∀ j, j < k → connOutcome (peer j) = .ioError) ∧
      ∃ l, connOutcome (peer k) = .frame l ∧
        ∀ n, 4 ≤ n → sendIter peer payload 3 (1/2) n =
          .done (decode_message l) (k + 1)
            ((List.range k).map fun j => (1/2 : ℚ) * 2 ^ j)) ∨
    ((∀ j, j < 3 → connOutcome (peer j) = .ioError) ∧
      ∀ n, 4 ≤ n → sendIter peer payload 3 (1/2) n =
        .done (networkFailure payload) 3 [1/2, 1, 2]) := by
  have absurd0 := hpeer 0
  have absurd1 := hpeer 1
  have absurd2 := hpeer 2
  cases h0 : connOutcome (peer 0) with
  | closed => exact absurd h0 absurd0
  | frame l =>
      refine Or.inl ⟨0, by omega, fun j hj => absurd hj (by omega), l, h0, fun n hn => ?_⟩
      have h1 : sendIter peer payload 3 (1/2) 1 = .done (decode_message l) 1 [] := by
        simp [sendIter, sendStep, h0]
      simpa using sendIter_stable h1 n (by omega)
  | ioError =>
      have s1 : sendIter peer payload 3 (1/2) 1 = .running 1 1 [(1/2 : ℚ) * 2 ^ 0] := by
        simp [sendIter, sendStep, h0]
      cases h1 : connOutcome (peer 1) with
      | closed => exact absurd h1 absurd1
      | frame l =>
          refine Or.inl ⟨1, by omega, ?_, l, h1, fun n hn => ?_⟩
          · intro j hj
            interval_cases j
            exact h0
          · have h2 : sendIter peer payload 3 (1/2) 2 =
                .done (decode_message l) 2 [(1/2 : ℚ) * 2 ^ 0] := by
              rw [sendIter, s1]
              simp [sendStep, h1]
            have := sendIter_stable h2 n (by omega)
            rw [this]
            norm_num [List.range_succ]
      | ioError =>
          have s2 : sendIter peer payload 3 (1/2) 2 =
              .running 2 2 [(1/2 : ℚ) * 2 ^ 0, (1/2 : ℚ) * 2 ^ 1] := by
            rw [sendIter, s1]
            simp [sendStep, h1]
          cases h2 : connOutcome (peer 2) with
          | closed => exact absurd h2 absurd2
          | frame l =>
              refine Or.inl ⟨2, by omega, ?_, l, h2, fun n hn => ?_⟩
              · intro j hj
                interval_cases j
                · exact h0
                · exact h1
              · have h3 : sendIter peer payload 3 (1/2) 3 =
                    .done (decode_message l) 3 [(1/2 : ℚ) * 2 ^ 0, (1/2 : ℚ) * 2 ^ 1] := by
                  rw [sendIter, s2]
                  simp [sendStep, h2]
                have := sendIter_stable h3 n (by omega)
                rw [this]
                norm_num [List.range_succ]
          | ioError =>
              refine Or.inr ⟨fun j hj => ?_, fun n hn => ?_⟩
              · interval_cases j
                · exact h0
                · exact h1
                · exact h2
              · have s3 : sendIter peer payload 3 (1/2) 3 =
                    .running 3 3 [(1/2 : ℚ) * 2 ^ 0, (1/2 : ℚ) * 2 ^ 1, (1/2 : ℚ) * 2 ^ 2] := by
                  rw [sendIter, s2]
                  simp [sendStep, h2]
                have s4 : sendIter peer payload 3 (1/2) 4 =
                    .done (networkFailure payload) 3 [1/2, 1, 2] := by
                  rw [sendIter, s3]
                  simp [sendStep]
                  norm_num
                exact sendIter_stable s4 n hn

/-- Witness for the amended C3, at the peer whose passes all raise. -/
theorem c3_retry_behavior_witness :
    (∀ i, connOutcome (raisingPeer i) ≠ .closed) ∧
    ((∃ k, k < 3 ∧ (∀ j, j < k → connOutcome (raisingPeer j) = .ioError) ∧
      ∃ l, connOutcome (raisingPeer k) = .frame l ∧
        ∀ n, 4 ≤ n → sendIter raisingPeer (.str "p") 3 (1/2) n =
          .done (decode_message l) (k + 1)
            ((List.range k).map fun j => (1/2 : ℚ) * 2 ^ j)) ∨
    ((∀ j, j < 3 → connOutcome (raisingPeer j) = .ioError) ∧
      ∀ n, 4 ≤ n → sendIter raisingPeer (.str "p") 3 (1/2) n =
        .done (networkFailure (.str "p")) 3 [1/2, 1, 2])) :=
  ⟨fun _ => show ConnResult.ioError ≠ ConnResult.closed by decide,
   c3_retry_behavior raisingPeer (.str "p")
     (fun _ => show ConnResult.ioError ≠ ConnResult.closed by decide)⟩

/-! ## Claims about `validate_request` -/

/-- When nothing is missing, each required field is present. -/
theorem missing_empty_present {kvs : List (String × JValue)}
    (h : (missingOf kvs).isEmpty = true) {k : String} (hk : k ∈ REQUIRED_FIELDS) :
    ∃ v, jlookup kvs k = some v := by
  rw [missingOf, List.isEmpty_iff, List.filter_eq_nil_iff] at h
  have := h k hk
  cases hjk : jlookup kvs k with
  | none => exact absurd (by simp [hjk]) this
  | some v => exact ⟨v, rfl⟩

/-- **C4, counterexample**: at a request whose `task_type` value is the
list `[1]` (present, not in the expected set), the reference definition
prescribes `(False, "invalid_task_type")`, but `validate_request` raises
`TypeError`: `req["task_type"] not in expected_task_types` hashes the
unhashable list. -/
theorem c4_counterexample :
    validateSpec (.obj [("task_id", .str "a"), ("task_type", .arr [.num 1]),
      ("data", .str "x"), ("auth_token", .str "t")]) none = (false, "invalid_task_type") ∧
    validate_request (.obj [("task_id", .str "a"), ("task_type", .arr [.num 1]),
      ("data", .str "x"), ("auth_token", .str "t")]) none = .error .typeError := by
  decide

/-- **C4, amended**: whenever the `task_type` value is hashable (in
particular for every request whose `task_type` is a string — only `list`
and `dict` values are unhashable), `validate_request` returns exactly the
reference verdict; on an unhashable `task_type` it instead raises
`TypeError` (see the counterexample). -/
theorem c4_validate_matches_reference (req : JValue) (expected : Option (List JValue))
    (hhash : taskTypeHashable req = true) :
    validate_request req expected = .ok (validateSpec req expected) := by
  cases req with
  | obj kvs =>
      by_cases hm : (missingOf kvs).isEmpty
      · obtain ⟨tt, htt⟩ := missing_empty_present hm (k := "task_type") (by decide)
        obtain ⟨tid, htid⟩ := missing_empty_present hm (k := "task_id") (by decide)
        obtain ⟨d, hd⟩ := missing_empty_present hm (k := "data") (by decide)
        have hth : pyHashable tt = true := by
          simpa [taskTypeHashable, htt] using hhash
        simp only [validate_request, validateSpec, hm, htt, htid, hd, hth,
          Bool.not_true, Bool.false_eq_true, if_false, Bool.not_false]
        split
        · rfl
        · split
          · rfl
          · split
            · rfl
            · rfl
      · have hm' : (!(missingOf kvs).isEmpty) = true := by simpa using hm
        simp only [validate_request, validateSpec, hm', if_true]
  | null => rfl
  | bool b => rfl
  | num n => rfl
  | str s => rfl
  | arr xs => rfl

/-- Witness for the amended C4 at a fully valid request. -/
theorem c4_validate_matches_reference_witness :
    taskTypeHashable (.obj [("task_id", .str "t1"), ("task_type", .str "collect"),
      ("data", .str "d"), ("auth_token", .str "s")]) = true ∧
    validate_request (.obj [("task_id", .str "t1"), ("task_type", .str "collect"),
        ("data", .str "d"), ("auth_token", .str "s")]) none =
      .ok (validateSpec (.obj [("task_id", .str "t1"), ("task_type", .str "collect"),
        ("data", .str "d"), ("auth_token", .str "s")]) none) :=
  ⟨by decide, c4_validate_matches_reference _ none (by decide)⟩

/-! ## Claims about the agent server -/

/-- **C8**: one frame changes the in-memory store or the backing file only
when the injected handler call succeeds: every decode-failure, validation-
failure, connection-aborting, auth-mismatch and handler-exception path
leaves both exactly as they were; on handler success exactly the entry for
the request's `task_id` is overwritten and the whole store is persisted at
once (`disk` becomes the new store). -/
theorem c8_store_changes_only_on_success (tok : String) (handle_task : Handler)
    (mem disk : Mem) (line : String) :
    ((processFrame tok handle_task mem disk line).2.1 = mem ∧
     (processFrame tok handle_task mem disk line).2.2 = disk) ∨
    (∃ kvs tid tt d res,
      decode_message line = .obj kvs ∧
      jlookup kvs "task_id" = some (.str tid) ∧
      jlookup kvs "task_type" = some tt ∧
      jlookup kvs "data" = some d ∧
      handle_task tt d mem = .ok res ∧
      (processFrame tok handle_task mem disk line).1 =
        some (make_response (.str tid) "ok" res .null) ∧
      (processFrame tok handle_task mem disk line).2.1 = (fun k =>
        if k = tid then some (.obj [("task_type", tt), ("data", d), ("result", res)])
        else mem k) ∧
      (processFrame tok handle_task mem disk line).2.2 =
        (processFrame tok handle_task mem disk line).2.1) := by
  cases hdec : decode_message line with
  | obj kvs =>
      simp only [processFrame, hdec]
      split
      · exact Or.inl ⟨rfl, rfl⟩
      · split
        · exact Or.inl ⟨rfl, rfl⟩
        · split
          · exact Or.inl ⟨rfl, rfl⟩
          · split
            · split
              · exact Or.inl ⟨rfl, rfl⟩
              · split
                · rename_i hauth htid htt hd hne hx res hht
                  exact Or.inr ⟨kvs, _, _, _, _, rfl, htid, htt, hd, hht, rfl, rfl, rfl⟩
                · exact Or.inl ⟨rfl, rfl⟩
            · exact Or.inl ⟨rfl, rfl⟩
  | null => exact Or.inl ⟨by simp [processFrame, hdec], by simp [processFrame, hdec]⟩
  | bool b => exact Or.inl ⟨by simp [processFrame, hdec], by simp [processFrame, hdec]⟩
  | num n => exact Or.inl ⟨by simp [processFrame, hdec], by simp [processFrame, hdec]⟩
  | str s => exact Or.inl ⟨by simp [processFrame, hdec], by simp [processFrame, hdec]⟩
  | arr xs => exact Or.inl ⟨by simp [processFrame, hdec], by simp [processFrame, hdec]⟩

/-- **C6** (the code violates it): a frame whose payload is `[]` — valid
JSON that decodes to something other than a mapping — makes the server
raise `AttributeError` at `req.get("task_type")` while building the
expected-type set, aborting the whole connection with no response, rather
than answering `invalid_format` and reading on; the second conjunct shows
the validator itself would have produced exactly the graceful
`invalid_format` verdict the claim (and spec §4.2) describes, so the
`.get` before validation is the slip. -/
theorem c6_nonmapping_payload_aborts (tok : String) (handle_task : Handler)
    (mem disk : Mem) :
    processFrame tok handle_task mem disk "[]" = (none, mem, disk) ∧
    validate_request (decode_message "[]") (some []) = .ok (false, "invalid_format") := by
  constructor
  · rfl
  · decide

/-- **C10**: whenever the payload is not parseable JSON, `decode_message`
yields the `{"error": "decode_error", ...}` sentinel, a mapping that lacks
all four required fields; the server therefore replies with `task_id` `""`
and error exactly `missing_fields:auth_token,data,task_id,task_type` —
never `decode_error` — and the store is untouched. -/
theorem c10_decode_error_never_sent (tok : String) (handle_task : Handler)
    (mem disk : Mem) (line : String) (hbad : loads (pyStrip line) = none) :
    processFrame tok handle_task mem disk line =
      (some (make_response (.str "") "error" .null
        (.str "missing_fields:auth_token,data,task_id,task_type")), mem, disk) := by
  have hdec : decode_message line =
      .obj [("error", .str "decode_error"), ("detail", .str decodeDetail)] := by
    simp [decode_message, hbad]
  simp only [processFrame, hdec]
  rfl

/-- Validation against a singleton expected set holding the request's own
(hashable) `task_type` value can only return `invalid_task_id`,
`invalid_data` or `ok` — membership is reflexive, so never
`invalid_task_type`. -/
theorem validate_own_type {kvs : List (String × JValue)} {v : JValue}
    (hmiss : (missingOf kvs).isEmpty = true)
    (htt : jlookup kvs "task_type" = some v) (hh : pyHashable v = true) :
    ∃ b reason, validate_request (.obj kvs) (some [v]) = .ok (b, reason) ∧
      reason ≠ "invalid_task_type" := by
  obtain ⟨tid, htid⟩ := missing_empty_present hmiss (k := "task_id") (by decide)
  obtain ⟨d, hd⟩ := missing_empty_present hmiss (k := "data") (by decide)
  have hmem : pyMem v [v] = true := by simp [pyMem, jeq_refl]
  simp only [validate_request, hmiss, htt, htid, hd, hh, hmem, Option.getD_some,
    Bool.not_true, Bool.false_eq_true, if_false]
  split
  · exact ⟨false, "invalid_task_id", rfl, by decide⟩
  · split
    · exact ⟨false, "invalid_data", rfl, by decide⟩
    · exact ⟨true, "ok", rfl, by decide⟩

/-- **C7**: the server validates each frame against the request's own
declared `task_type` as the sole expected type, so for a frame that
decodes to a mapping carrying all four required fields with a truthy
`task_type` value, no reply it sends can carry the error
`invalid_task_type` — even when that value lies outside
{collect, analyze, report} (the witness uses `"weird"`). -/
theorem c7_own_type_never_invalid (tok : String) (handle_task : Handler) (mem disk : Mem)
    (line : String) (kvs : List (String × JValue)) (v : JValue) (resp : JValue)
    (hdec : decode_message line = .obj kvs)
    (hmiss : (missingOf kvs).isEmpty = true)
    (htt : jlookup kvs "task_type" = some v)
    (htruthy : pyTruthy v = true)
    (hresp : (processFrame tok handle_task mem disk line).1 = some resp) :
    ∀ x, resp ≠ make_response x "error" .null (.str "invalid_task_type") := by
  intro x heq
  subst heq
  by_cases hh : pyHashable v = true
  case neg =>
      simp only [processFrame, hdec, htt, htruthy] at hresp
      rw [if_pos (by simp [Bool.not_eq_true] at hh; simp [hh])] at hresp
      exact absurd hresp (by simp)
  case pos =>
      obtain ⟨b, reason, hval, hreason⟩ := validate_own_type hmiss htt hh
      simp only [processFrame, hdec, htt, htruthy, hh, Bool.not_true, Bool.or_self,
        Bool.not_false, if_true, if_false, Bool.false_eq_true] at hresp
      rw [if_neg (by simp)] at hresp
      rw [hval] at hresp
      cases b with
      | false =>
          simp only [Bool.not_false, if_true, Option.some.injEq] at hresp
          have : JValue.str reason = JValue.str "invalid_task_type" := by
            have h4 := congrArg (fun j => match j with
              | JValue.obj l => jlookup l "error"
              | _ => none) hresp
            simpa [make_response, jlookup] using h4
          exact hreason (by injection this)
      | true =>
          simp only [Bool.not_true, Bool.false_eq_true, if_false] at hresp
          split at hresp
          · split at hresp
            · simp only [Option.some.injEq] at hresp
              have h4 := congrArg (fun j => match j with
                | JValue.obj l => jlookup l "error"
                | _ => none) hresp
              simp [make_response, jlookup] at h4
            · split at hresp
              · simp only [Option.some.injEq] at hresp
                have h4 := congrArg (fun j => match j with
                  | JValue.obj l => jlookup l "status"
                  | _ => none) hresp
                simp [make_response, jlookup] at h4
              · simp only [Option.some.injEq] at hresp
                have h4 := congrArg (fun j => match j with
                  | JValue.obj l => jlookup l "error"
                  | _ => none) hresp
                simp [make_response, jlookup] at h4
          · exact absurd hresp (by simp)

/-- Witness for C7: a frame whose `task_type` is `"weird"` (outside the
allowed set) and whose auth token mismatches still draws a reply, and that
reply is not `invalid_task_type`. -/
theorem c7_own_type_never_invalid_witness :
    decode_message "\x7b\"task_id\": \"a\", \"task_type\": \"weird\", \"data\": \"x\", \"auth_token\": \"nope\"\x7d" =
      .obj [("task_id", .str "a"), ("task_type", .str "weird"), ("data", .str "x"),
        ("auth_token", .str "nope")] ∧
    (missingOf [("task_id", .str "a"), ("task_type", .str "weird"), ("data", .str "x"),
        ("auth_token", .str "nope")]).isEmpty = true ∧
    jlookup [("task_id", .str "a"), ("task_type", .str "weird"), ("data", .str "x"),
        ("auth_token", .str "nope")] "task_type" = some (.str "weird") ∧
    pyTruthy (.str "weird") = true ∧
    (processFrame "secret" constHandler emptyMem emptyMem
        "\x7b\"task_id\": \"a\", \"task_type\": \"weird\", \"data\": \"x\", \"auth_token\": \"nope\"\x7d").1 =
      some (make_response (.str "a") "error" .null (.str "unauthorized")) ∧
    ∀ x, make_response (.str "a") "error" .null (.str "unauthorized") ≠
      make_response x "error" .null (.str "invalid_task_type") :=
  ⟨by decide, by decide, by decide, by decide, by decide,
   c7_own_type_never_invalid "secret" constHandler emptyMem emptyMem
     "\x7b\"task_id\": \"a\", \"task_type\": \"weird\", \"data\": \"x\", \"auth_token\": \"nope\"\x7d"
     [("task_id", .str "a"), ("task_type", .str "weird"), ("data", .str "x"),
       ("auth_token", .str "nope")]
     (.str "weird")
     (make_response (.str "a") "error" .null (.str "unauthorized"))
     (by decide) (by decide) (by decide) (by decide) (by decide)⟩

/-- Witness for C10 at the unparseable payload `"x"`. -/
theorem c10_decode_error_never_sent_witness :
    loads (pyStrip "x") = none ∧
    processFrame "change-me" constHandler emptyMem emptyMem "x" =
      (some (make_response (.str "") "error" .null
        (.str "missing_fields:auth_token,data,task_id,task_type")), emptyMem, emptyMem) :=
  ⟨by decide, c10_decode_error_never_sent "change-me" constHandler emptyMem emptyMem "x"
    (by decide)⟩

/-! ## The codec round-trip (C5)

`decode_message ∘ encode_message = id`, proven for the whole modelled value
grammar.  The layering: digit lemmas invert the integer renderer, an
escape-inverse lemma inverts the string renderer, head/last lemmas show
rendered output never starts or ends with whitespace (so the parser's
whitespace skipping and `strip` are inert on it), and a mutual induction
closes the value/items/fields cases. -/

theorem digitCh_toNat {k : Nat} (h : k < 10) : (digitCh k).toNat = 48 + k := by
  interval_cases k <;> rfl

theorem digitCh_isDig {k : Nat} (h : k < 10) : isDig (digitCh k) = true := by
  interval_cases k <;> rfl

/-- The fuel argument of `natCharsF` is irrelevant once it covers `n`. -/
theorem natCharsF_irrel : ∀ (f g n : Nat), n ≤ f → n ≤ g → natCharsF f n = natCharsF g n := by
  intro f
  induction f with
  | zero =>
      intro g n hf _
      have : n = 0 := Nat.le_zero.mp hf
      subst this
      cases g with
      | zero => rfl
      | succ g => rfl
  | succ f ih =>
      intro g n hf hg
      cases g with
      | zero =>
          have : n = 0 := Nat.le_zero.mp hg
          subst this
          rfl
      | succ g =>
          simp only [natCharsF]
          by_cases hn : n < 10
          · simp [hn]
          · simp only [hn, if_false]
            have hd : n / 10 < n := Nat.div_lt_self (by omega) (by omega)
            rw [ih g (n / 10) (by omega) (by omega)]

/-- `natChars` satisfies its intended recursion. -/
theorem natChars_unfold (n : Nat) :
    natChars n = if n < 10 then [digitCh n] else natChars (n / 10) ++ [digitCh (n % 10)] := by
  by_cases hn : n < 10
  · cases n with
    | zero => simp [natChars, natCharsF]
    | succ m => simp [natChars, natCharsF, hn]
  · have hd : n / 10 < n := Nat.div_lt_self (by omega) (by omega)
    simp only [natChars, if_neg hn]
    cases n with
    | zero => omega
    | succ m =>
        simp only [natCharsF, if_neg hn]
        rw [natCharsF_irrel m (n := (m + 1) / 10) ((m + 1) / 10) (by omega) (by omega)]

theorem natChars_ne_nil (n : Nat) : natChars n ≠ [] := by
  rw [natChars_unfold]
  split <;> simp

theorem natChars_digits (n : Nat) : ∀ c ∈ natChars n, isDig c = true := by
  induction n using Nat.strong_induction_on with
  | _ n ih =>
      rw [natChars_unfold]
      intro c hc
      by_cases hn : n < 10
      · rw [if_pos hn] at hc
        simp only [List.mem_singleton] at hc
        subst hc
        exact digitCh_isDig hn
      · rw [if_neg hn] at hc
        rcases List.mem_append.mp hc with h | h
        · exact ih (n / 10) (Nat.div_lt_self (by omega) (by omega)) c h
        · simp only [List.mem_singleton] at h
          subst h
          exact digitCh_isDig (Nat.mod_lt _ (by omega))

theorem natChars_head (n : Nat) : ∃ c t, natChars n = c :: t ∧ isDig c = true := by
  cases hc : natChars n with
  | nil => exact absurd hc (natChars_ne_nil n)
  | cons c t =>
      refine ⟨c, t, rfl, natChars_digits n c ?_⟩
      rw [hc]
      exact List.mem_cons_self c t

theorem natChars_last (n : Nat) : ∃ t c, natChars n = t ++ [c] ∧ isDig c = true := by
  rw [natChars_unfold]
  by_cases hn : n < 10
  · exact ⟨[], digitCh n, by simp [hn], digitCh_isDig hn⟩
  · exact ⟨natChars (n / 10), digitCh (n % 10), by simp [hn],
      digitCh_isDig (Nat.mod_lt _ (by omega))⟩

theorem digsNat_natChars (n : Nat) : digsNat (natChars n) = n := by
  induction n using Nat.strong_induction_on with
  | _ n ih =>
      rw [natChars_unfold]
      by_cases hn : n < 10
      · simp only [if_pos hn, digsNat, List.foldl_cons, List.foldl_nil]
        rw [digitCh_toNat hn]
        omega
      · simp only [if_neg hn, digsNat, List.foldl_append, List.foldl_cons, List.foldl_nil]
        have := ih (n / 10) (Nat.div_lt_self (by omega) (by omega))
        rw [digsNat] at this
        rw [this, digitCh_toNat (Nat.mod_lt _ (by omega))]
        omega

theorem digSpan_stop {cs : List Char} (h : digBoundary cs = true) : digSpan cs = ([], cs) := by
  cases cs with
  | nil => rfl
  | cons c t =>
      simp only [digBoundary, Bool.not_eq_true'] at h
      simp [digSpan, h]

/-- `digSpan` splits off exactly a digit run followed by a boundary. -/
theorem digSpan_run {ds : List Char} (hds : ∀ c ∈ ds, isDig c = true)
    {rest : List Char} (hrest : digBoundary rest = true) :
    digSpan (ds ++ rest) = (ds, rest) := by
  induction ds with
  | nil => simpa using digSpan_stop hrest
  | cons c t ih =>
      have hc : isDig c = true := hds c (List.mem_cons_self c t)
      have ht := ih (fun x hx => hds x (List.mem_cons_of_mem c hx))
      simp [digSpan, hc, ht]

/-- A digit character is none of the characters the parser treats
specially. -/
theorem isDig_facts {c : Char} (h : isDig c = true) :
    jws c = false ∧ pyWs c = false ∧ c ≠ 'n' ∧ c ≠ 't' ∧ c ≠ 'f' ∧ c ≠ '"' ∧ c ≠ '[' ∧
      c ≠ '{' ∧ c ≠ '-' ∧ c ≠ ']' ∧ c ≠ '}' := by
  and_intros
  · rcases Bool.eq_false_or_eq_true (jws c) with ht | hf
    · exfalso
      simp only [jws, Bool.or_eq_true, beq_iff_eq] at ht
      rcases ht with ((rfl | rfl) | rfl) | rfl <;> exact absurd h (by decide)
    · exact hf
  · rcases Bool.eq_false_or_eq_true (pyWs c) with ht | hf
    · exfalso
      simp only [pyWs, Bool.or_eq_true, beq_iff_eq] at ht
      rcases ht with ((((rfl | rfl) | rfl) | rfl) | rfl) | rfl <;> exact absurd h (by decide)
    · exact hf
  all_goals
    intro hc2
    rw [hc2] at h
    exact absurd h (by decide)

theorem hexNib_hexDig {n : Nat} (h : n < 16) : hexNib (hexDig n) = some n := by
  interval_cases n <;> rfl

/-- Parsing one escaped character undoes `escChar`. -/
theorem strBodyF_escChar (g : Nat) (c : Char) (cs : List Char) :
    strBodyF (g + 1) (escChar c ++ cs) = (strBodyF g cs).map fun p => (c :: p.1, p.2) := by
  by_cases h1 : c = '\\'
  · subst h1; simp [escChar, strBodyF, unescChar]
  · by_cases h2 : c = '"'
    · subst h2; simp [escChar, strBodyF, unescChar]
    · by_cases h3 : c = '\n'
      · subst h3; simp [escChar, strBodyF, unescChar]
      · by_cases h4 : c = '\r'
        · subst h4; simp [escChar, strBodyF, unescChar]
        · by_cases h5 : c = '\t'
          · subst h5; simp [escChar, strBodyF, unescChar]
          · by_cases h6 : c = Char.ofNat 8
            · subst h6; simp [escChar, strBodyF, unescChar]
            · by_cases h7 : c = Char.ofNat 12
              · subst h7; simp [escChar, strBodyF, unescChar]
              · by_cases hlt : c.toNat < 32
                · have ha : c.toNat / 16 < 16 := by omega
                  have hbv : c.toNat % 16 < 16 := Nat.mod_lt _ (by omega)
                  simp [escChar, h1, h2, h3, h4, h5, h6, h7, if_pos hlt, strBodyF,
                    hexNib_hexDig ha, hexNib_hexDig hbv, show hexNib '0' = some 0 from rfl]
                  rw [show c.toNat / 16 * 16 + c.toNat % 16 = c.toNat from by omega,
                    Char.ofNat_toNat]
                · have hred : escChar c = [c] := by
                    simp [escChar, h1, h2, h3, h4, h5, h6, h7, hlt]
                  rw [hred]
                  show strBodyF (g + 1) (c :: cs) = _
                  simp only [strBodyF]
                  rw [if_neg h2, if_neg h1]

/-- Parsing a fully escaped run recovers it, stopping at the closing
quote. -/
theorem strBodyF_flat (l : List Char) : ∀ (g : Nat) (rest : List Char), l.length < g →
    strBodyF g (l.flatMap escChar ++ '"' :: rest) = some (l, rest) := by
  induction l with
  | nil =>
      intro g rest hg
      cases g with
      | zero => omega
      | succ g =>
          simp only [List.flatMap_nil, List.nil_append]
          rfl
  | cons c t ih =>
      intro g rest hg
      cases g with
      | zero => omega
      | succ g =>
          rw [List.flatMap_cons, List.append_assoc, strBodyF_escChar,
            ih g rest (by simp only [List.length_cons] at hg; omega)]
          rfl

theorem dropWs_cons {c : Char} (h : jws c = false) (cs : List Char) :
    dropWs (c :: cs) = c :: cs := by
  simp [dropWs, h]

/-- A leading space is invisible to the value parser. -/
theorem jval_ws (f : Nat) (cs : List Char) : jval f (' ' :: cs) = jval f cs := by
  cases f <;> rfl

/-- A leading space is invisible to the element-list parser. -/
theorem jitems_ws (f : Nat) (cs : List Char) : jitems f (' ' :: cs) = jitems f cs := by
  cases f with
  | zero => rfl
  | succ f => simp only [jitems, jval_ws]

/-- A leading space is invisible to the member-list parser. -/
theorem jfields_ws (f : Nat) (cs : List Char) : jfields f (' ' :: cs) = jfields f cs := by
  cases f <;> rfl

/-- Rendered output begins with a character that is neither whitespace nor
a closing bracket. -/
theorem dumpsL_head (v : JValue) :
    ∃ c t, dumpsL v = c :: t ∧ jws c = false ∧ pyWs c = false ∧ c ≠ ']' ∧ c ≠ '}' := by
  cases v with
  | null => exact ⟨'n', _, rfl, by decide, by decide, by decide, by decide⟩
  | bool b =>
      cases b with
      | false => exact ⟨'f', _, rfl, by decide, by decide, by decide, by decide⟩
      | true => exact ⟨'t', _, rfl, by decide, by decide, by decide, by decide⟩
  | num n =>
      by_cases hn : n < 0
      · exact ⟨'-', natChars n.natAbs, by simp [dumpsL, intChars, hn], by decide, by decide,
          by decide, by decide⟩
      · obtain ⟨c, t, hct, hd⟩ := natChars_head n.natAbs
        obtain ⟨hws, hpws, _, _, _, _, _, _, _, hbr, hbc⟩ := isDig_facts hd
        exact ⟨c, t, by simp [dumpsL, intChars, hn, hct], hws, hpws, hbr, hbc⟩
  | str s => exact ⟨'"', _, rfl, by decide, by decide, by decide, by decide⟩
  | arr xs => exact ⟨'[', _, rfl, by decide, by decide, by decide, by decide⟩
  | obj kvs => exact ⟨'{', _, rfl, by decide, by decide, by decide, by decide⟩

/-- Rendered output ends with a non-whitespace character. -/
theorem dumpsL_last (v : JValue) : ∃ t c, dumpsL v = t ++ [c] ∧ pyWs c = false := by
  cases v with
  | null => exact ⟨['n', 'u', 'l'], 'l', rfl, by decide⟩
  | bool b =>
      cases b with
      | false => exact ⟨['f', 'a', 'l', 's'], 'e', rfl, by decide⟩
      | true => exact ⟨['t', 'r', 'u'], 'e', rfl, by decide⟩
  | num n =>
      obtain ⟨t, c, htc, hd⟩ := natChars_last n.natAbs
      by_cases hn : n < 0
      · exact ⟨'-' :: t, c, by simp [dumpsL, intChars, hn, htc], ((isDig_facts hd).2.1)⟩
      · exact ⟨t, c, by simp [dumpsL, intChars, hn, htc], ((isDig_facts hd).2.1)⟩
  | str s =>
      exact ⟨'"' :: s.data.flatMap escChar, '"', by simp [dumpsL, encStr], by decide⟩
  | arr xs => exact ⟨'[' :: dumpsItems xs, ']', by simp [dumpsL], by decide⟩
  | obj kvs => exact ⟨'{' :: dumpsFields kvs, '}', by simp [dumpsL], by decide⟩

/-- The parser's number branch at a digit head. -/
theorem jval_digit_head (f : Nat) (c : Char) (t ds r2 : List Char) (hd : isDig c = true)
    (hspan : digSpan (c :: t) = (ds, r2)) :
    jval (f + 1) (c :: t) = some (.num (digsNat ds), r2) := by
  obtain ⟨hws, _, hn, ht, hf, hq, hbk, hbc, hminus, _, _⟩ := isDig_facts hd
  simp only [jval]
  rw [dropWs_cons hws]
  simp [hn, ht, hf, hq, hbk, hbc, hminus, hd, hspan]

/-- The parser's number branch after a minus sign (definitional). -/
theorem jval_minus_eq (f : Nat) (t : List Char) :
    jval (f + 1) ('-' :: t) =
      (match digSpan t with
       | ([], _) => none
       | (ds, r2) => some (.num (-(digsNat ds : Int)), r2)) := rfl

/-- Parsing a rendered integer recovers it. -/
theorem jval_intChars (i : Int) (f : Nat) (rest : List Char) (hb : digBoundary rest = true) :
    jval (f + 1) (intChars i ++ rest) = some (.num i, rest) := by
  have hspan : digSpan (natChars i.natAbs ++ rest) = (natChars i.natAbs, rest) :=
    digSpan_run (natChars_digits _) hb
  by_cases hi : i < 0
  · have harg : intChars i ++ rest = '-' :: (natChars i.natAbs ++ rest) := by
      simp [intChars, hi]
    rw [harg, jval_minus_eq, hspan]
    obtain ⟨c, t, hct, _⟩ := natChars_head i.natAbs
    rw [hct]
    show some (JValue.num (-(digsNat (c :: t) : Int)), rest) = some (.num i, rest)
    have hdg : digsNat (c :: t) = i.natAbs := by rw [← hct]; exact digsNat_natChars _
    rw [hdg, show -(i.natAbs : Int) = i from by omega]
  · obtain ⟨c, t, hct, hd⟩ := natChars_head i.natAbs
    have harg : intChars i ++ rest = c :: (t ++ rest) := by
      simp [intChars, hi, hct]
    have hspan2 : digSpan (c :: (t ++ rest)) = (c :: t, rest) := by
      rw [show c :: (t ++ rest) = (c :: t) ++ rest from rfl, ← hct]
      exact hspan
    rw [harg, jval_digit_head f c (t ++ rest) (c :: t) rest hd hspan2]
    have hdg : digsNat (c :: t) = i.natAbs := by rw [← hct]; exact digsNat_natChars _
    rw [hdg, show (i.natAbs : Int) = i from by omega]

theorem escChar_length_pos (c : Char) : 0 < (escChar c).length := by
  unfold escChar
  repeat' split
  all_goals simp

theorem flatMap_escChar_length (l : List Char) :
    l.length ≤ (l.flatMap escChar).length := by
  induction l with
  | nil => simp
  | cons c t ih =>
      rw [List.flatMap_cons, List.length_append, List.length_cons]
      have := escChar_length_pos c
      omega

/-- A rendered nonempty element list begins like its first rendered value:
with a non-whitespace, non-`]` character. -/
theorem dumpsItems_head (x : JValue) (xs : List JValue) :
    ∃ c t, dumpsItems (x :: xs) = c :: t ∧ jws c = false ∧ c ≠ ']' := by
  obtain ⟨c, t, hct, hws, _, hbr, _⟩ := dumpsL_head x
  cases xs with
  | nil => exact ⟨c, t, by simp [dumpsItems, hct], hws, hbr⟩
  | cons y ys =>
      exact ⟨c, t ++ ',' :: ' ' :: dumpsItems (y :: ys), by simp [dumpsItems, hct], hws, hbr⟩

/-- Parsing a rendered string recovers it. -/
theorem jval_str (f : Nat) (s : String) (rest : List Char) (hf : s.data.length < f) :
    jval (f + 1) (encStr s ++ rest) = some (.str s, rest) := by
  have harg : encStr s ++ rest = '"' :: (s.data.flatMap escChar ++ '"' :: rest) := by
    simp [encStr]
  rw [harg]
  have hsb := strBodyF_flat s.data f rest hf
  simp only [jval]
  rw [dropWs_cons (by decide)]
  simp only [hsb]
  rfl

/-- The value parser on a nonempty rendered array reduces to the element
parser. -/
theorem jval_arr_step (f : Nat) (x : JValue) (xs : List JValue) (rest : List Char) :
    jval (f + 1) ('[' :: (dumpsItems (x :: xs) ++ ']' :: rest)) =
      (jitems f (dumpsItems (x :: xs) ++ ']' :: rest)).map fun p => (.arr p.1, p.2) := by
  obtain ⟨c, t, hct, hws, hbr⟩ := dumpsItems_head x xs
  have h1 : jval (f + 1) ('[' :: (dumpsItems (x :: xs) ++ ']' :: rest)) =
      (match dropWs (dumpsItems (x :: xs) ++ ']' :: rest) with
       | [] => none
       | c :: r2 =>
           if c = ']' then some (.arr [], r2)
           else (jitems f (c :: r2)).map fun p => (.arr p.1, p.2)) := rfl
  rw [h1, hct, List.cons_append, dropWs_cons hws]
  simp only [if_neg hbr]

/-- The value parser on a nonempty rendered object reduces to the member
parser (rendered members always begin with the key's opening quote). -/
theorem jval_obj_step (f : Nat) (k : String) (v : JValue) (fs : List (String × JValue))
    (rest : List Char) :
    jval (f + 1) ('{' :: (dumpsFields ((k, v) :: fs) ++ '}' :: rest)) =
      (jfields f (dumpsFields ((k, v) :: fs) ++ '}' :: rest)).map fun p => (.obj p.1, p.2) := by
  have hct : ∃ t, dumpsFields ((k, v) :: fs) = '"' :: t := by
    cases fs with
    | nil =>
        refine ⟨(k.data.flatMap escChar ++ ['"']) ++ ':' :: ' ' :: dumpsL v, ?_⟩
        simp [dumpsFields, encStr]
    | cons f2 fs2 =>
        refine ⟨(k.data.flatMap escChar ++ ['"']) ++ ':' :: ' ' ::
          (dumpsL v ++ ',' :: ' ' :: dumpsFields (f2 :: fs2)), ?_⟩
        simp [dumpsFields, encStr]
  obtain ⟨t, hct⟩ := hct
  have h1 : jval (f + 1) ('{' :: (dumpsFields ((k, v) :: fs) ++ '}' :: rest)) =
      (match dropWs (dumpsFields ((k, v) :: fs) ++ '}' :: rest) with
       | [] => none
       | c :: r2 =>
           if c = '}' then some (.obj [], r2)
           else (jfields f (c :: r2)).map fun p => (.obj p.1, p.2)) := rfl
  rw [h1, hct, List.cons_append, dropWs_cons (by decide)]
  simp only [if_neg (show ¬('"' = '}') from by decide)]

/-- One-step unfolding of the element parser (definitional). -/
theorem jitems_step (f : Nat) (cs : List Char) :
    jitems (f + 1) cs =
      (match jval f cs with
       | none => none
       | some (v, r) =>
           match dropWs r with
           | ',' :: r2 =>
               (match jitems f r2 with
                | some (vs, r3) => some (v :: vs, r3)
                | none => none)
           | ']' :: r2 => some ([v], r2)
           | _ => none) := rfl

/-- One-step unfolding of the member parser (definitional). -/
theorem jfields_step (f : Nat) (cs : List Char) :
    jfields (f + 1) cs =
      (match dropWs cs with
       | '"' :: r =>
           match strBodyF f r with
           | none => none
           | some (k, r1) =>
               match dropWs r1 with
               | ':' :: r2 =>
                   match jval f r2 with
                   | none => none
                   | some (v, r3) =>
                       match dropWs r3 with
                       | ',' :: r4 =>
                           (match jfields f r4 with
                            | some (fs, r5) => some ((⟨k⟩, v) :: fs, r5)
                            | none => none)
                       | '}' :: r4 => some ([(⟨k⟩, v)], r4)
                       | _ => none
               | _ => none
       | _ => none) := rfl

mutual

/-- Parsing a rendered value followed by a digit boundary recovers it. -/
theorem rtVal : ∀ (v : JValue) (f : Nat) (rest : List Char),
    (dumpsL v).length < f → digBoundary rest = true →
    jval f (dumpsL v ++ rest) = some (v, rest)
  | .null, f, rest, hf, _ => by
      cases f with
      | zero => exact absurd hf (Nat.not_lt_zero _)
      | succ f => rfl
  | .bool true, f, rest, hf, _ => by
      cases f with
      | zero => exact absurd hf (Nat.not_lt_zero _)
      | succ f => rfl
  | .bool false, f, rest, hf, _ => by
      cases f with
      | zero => exact absurd hf (Nat.not_lt_zero _)
      | succ f => rfl
  | .num n, f, rest, hf, hb => by
      cases f with
      | zero => exact absurd hf (Nat.not_lt_zero _)
      | succ f => exact jval_intChars n f rest hb
  | .str s, f, rest, hf, _ => by
      cases f with
      | zero => exact absurd hf (Nat.not_lt_zero _)
      | succ f =>
          refine jval_str f s rest ?_
          have h1 := flatMap_escChar_length s.data
          simp only [dumpsL, encStr, List.length_cons, List.length_append] at hf
          omega
  | .arr [], f, rest, hf, _ => by
      cases f with
      | zero => exact absurd hf (Nat.not_lt_zero _)
      | succ f => rfl
  | .arr (x :: xs), f, rest, hf, _ => by
      cases f with
      | zero => exact absurd hf (Nat.not_lt_zero _)
      | succ f =>
          have harg : dumpsL (.arr (x :: xs)) ++ rest
              = '[' :: (dumpsItems (x :: xs) ++ ']' :: rest) := by
            simp [dumpsL]
          have hlen : (dumpsItems (x :: xs)).length + 1 < f := by
            simp [dumpsL] at hf
            omega
          rw [harg, jval_arr_step, rtItems x xs f rest hlen]
          rfl
  | .obj [], f, rest, hf, _ => by
      cases f with
      | zero => exact absurd hf (Nat.not_lt_zero _)
      | succ f => rfl
  | .obj ((k, v) :: fs), f, rest, hf, _ => by
      cases f with
      | zero => exact absurd hf (Nat.not_lt_zero _)
      | succ f =>
          have harg : dumpsL (.obj ((k, v) :: fs)) ++ rest
              = '{' :: (dumpsFields ((k, v) :: fs) ++ '}' :: rest) := by
            simp [dumpsL]
          have hlen : (dumpsFields ((k, v) :: fs)).length + 1 < f := by
            simp [dumpsL] at hf
            omega
          rw [harg, jval_obj_step, rtFields k v fs f rest hlen]
          rfl
termination_by v _ _ _ _ => sizeOf v

/-- Parsing a rendered nonempty element list up to `]` recovers it. -/
theorem rtItems : ∀ (x : JValue) (xs : List JValue) (f : Nat) (rest : List Char),
    (dumpsItems (x :: xs)).length + 1 < f →
    jitems f (dumpsItems (x :: xs) ++ ']' :: rest) = some (x :: xs, rest)
  | x, [], f, rest, hf => by
      cases f with
      | zero => exact absurd hf (Nat.not_lt_zero _)
      | succ f =>
          have hx : (dumpsL x).length < f := by
            simp only [dumpsItems] at hf
            omega
          have hv := rtVal x f (']' :: rest) hx rfl
          have harg : dumpsItems [x] ++ ']' :: rest = dumpsL x ++ ']' :: rest := rfl
          rw [jitems_step, harg, hv]
          rfl
  | x, y :: ys, f, rest, hf => by
      cases f with
      | zero => exact absurd hf (Nat.not_lt_zero _)
      | succ f =>
          have hx : (dumpsL x).length < f := by
            simp [dumpsItems] at hf
            omega
          have hys : (dumpsItems (y :: ys)).length + 1 < f := by
            simp [dumpsItems] at hf
            omega
          have harg : dumpsItems (x :: y :: ys) ++ ']' :: rest
              = dumpsL x ++ (',' :: ' ' :: (dumpsItems (y :: ys) ++ ']' :: rest)) := by
            simp [dumpsItems]
          have hv := rtVal x f (',' :: ' ' :: (dumpsItems (y :: ys) ++ ']' :: rest)) hx rfl
          have hrec := rtItems y ys f rest hys
          rw [jitems_step, harg, hv]
          simp [dropWs_cons (show jws ',' = false from rfl), jitems_ws, hrec]
termination_by x xs _ _ _ => sizeOf x + sizeOf xs

/-- Parsing a rendered nonempty member list up to `}` recovers it. -/
theorem rtFields : ∀ (k : String) (v : JValue) (fs : List (String × JValue)) (f : Nat)
    (rest : List Char),
    (dumpsFields ((k, v) :: fs)).length + 1 < f →
    jfields f (dumpsFields ((k, v) :: fs) ++ '}' :: rest) = some ((k, v) :: fs, rest)
  | k, v, [], f, rest, hf => by
      cases f with
      | zero => exact absurd hf (Nat.not_lt_zero _)
      | succ f =>
          have hk : k.data.length < f := by
            have h1 := flatMap_escChar_length k.data
            simp only [dumpsFields, encStr, List.length_append, List.length_cons,
              List.length_nil] at hf
            omega
          have hvlen : (dumpsL v).length < f := by
            simp only [dumpsFields, encStr, List.length_append, List.length_cons,
              List.length_nil] at hf
            omega
          have hsb := strBodyF_flat k.data f (':' :: ' ' :: (dumpsL v ++ '}' :: rest)) hk
          have hv := rtVal v f ('}' :: rest) hvlen rfl
          have harg : dumpsFields [(k, v)] ++ '}' :: rest
              = '"' :: (k.data.flatMap escChar
                  ++ '"' :: (':' :: ' ' :: (dumpsL v ++ '}' :: rest))) := by
            simp [dumpsFields, encStr]
          rw [harg, jfields_step]
          simp [dropWs_cons (show jws '"' = false from rfl),
            dropWs_cons (show jws ':' = false from rfl),
            dropWs_cons (show jws '}' = false from rfl), hsb, jval_ws, hv]
  | k, v, (k2, v2) :: fs, f, rest, hf => by
      cases f with
      | zero => exact absurd hf (Nat.not_lt_zero _)
      | succ f =>
          have hk : k.data.length < f := by
            have h1 := flatMap_escChar_length k.data
            simp only [dumpsFields, encStr, List.length_append, List.length_cons,
              List.length_nil] at hf
            omega
          have hvlen : (dumpsL v).length < f := by
            simp only [dumpsFields, encStr, List.length_append, List.length_cons,
              List.length_nil] at hf
            omega
          have hfs : (dumpsFields ((k2, v2) :: fs)).length + 1 < f := by
            simp only [dumpsFields, encStr, List.length_append, List.length_cons,
              List.length_nil] at hf
            omega
          have hsb := strBodyF_flat k.data f
            (':' :: ' ' :: (dumpsL v ++ ',' :: ' ' :: (dumpsFields ((k2, v2) :: fs)
              ++ '}' :: rest))) hk
          have hv := rtVal v f
            (',' :: ' ' :: (dumpsFields ((k2, v2) :: fs) ++ '}' :: rest)) hvlen rfl
          have hrec := rtFields k2 v2 fs f rest hfs
          have harg : dumpsFields ((k, v) :: (k2, v2) :: fs) ++ '}' :: rest
              = '"' :: (k.data.flatMap escChar
                  ++ '"' :: (':' :: ' ' :: (dumpsL v
                      ++ ',' :: ' ' :: (dumpsFields ((k2, v2) :: fs) ++ '}' :: rest)))) := by
            simp [dumpsFields, encStr]
          rw [harg, jfields_step]
          simp [dropWs_cons (show jws '"' = false from rfl),
            dropWs_cons (show jws ':' = false from rfl),
            dropWs_cons (show jws ',' = false from rfl), hsb, jval_ws, hv,
            jfields_ws, hrec]
termination_by k v fs _ _ _ => sizeOf v + sizeOf fs

end

/-- The parser inverts the renderer on every value. -/
theorem loads_dumps (v : JValue) : loads (dumps v) = some v := by
  have h := rtVal v ((dumpsL v).length + 1) [] (by omega) rfl
  rw [List.append_nil] at h
  show (match jval ((dumpsL v).length + 1) (dumpsL v) with
        | some (v, r) => if (dropWs r).isEmpty then some v else none
        | none => none) = some v
  rw [h]
  rfl

/-- `strip` removes exactly the frame delimiter from an encoded message:
rendered output neither starts nor ends with whitespace. -/
theorem pyStrip_encode (v : JValue) : pyStrip (dumps v ++ "\n") = dumps v := by
  obtain ⟨c, t, hct, _, hcp, _, _⟩ := dumpsL_head v
  obtain ⟨t2, c2, htc2, hc2p⟩ := dumpsL_last v
  have hdata : (dumps v ++ "\n").data = dumpsL v ++ ['\n'] := by
    rw [String.data_append]
    rfl
  simp only [pyStrip, hdata]
  have hlead : (dumpsL v ++ ['\n']).dropWhile pyWs = dumpsL v ++ ['\n'] := by
    rw [hct, List.cons_append, List.dropWhile_cons]
    simp [hcp]
  rw [hlead, List.reverse_append]
  simp only [List.reverse_cons, List.reverse_nil, List.nil_append, List.singleton_append]
  rw [List.dropWhile_cons]
  simp only [show pyWs '\n' = true from rfl, if_true]
  have htall : (dumpsL v).reverse.dropWhile pyWs = (dumpsL v).reverse := by
    rw [htc2, List.reverse_append]
    simp only [List.reverse_cons, List.reverse_nil, List.nil_append, List.singleton_append]
    rw [List.dropWhile_cons]
    simp [hc2p]
  rw [htall, List.reverse_reverse]
  rfl

/-- **C5**: decoding an encoded message reproduces it exactly —
`decode_message(encode_message(r)) = r` — for every modelled JSON value,
in particular for every valid request mapping: encoding appends the
newline delimiter, `strip` removes it again, and parsing inverts the
renderer. -/
theorem c5_decode_encode_roundtrip (r : JValue) :
    decode_message (encode_message r) = r := by
  simp only [decode_message, encode_message, pyStrip_encode, loads_dumps]

end MultiAgent
